import Mathlib

/-!
# Verification of the `dns` recursive resolver's core

A shallow embedding, in Lean 4, of the wire codec, cache and recursion-engine
code of the `dns` repository (Go), together with theorems settling the frozen
claims about it.

Conventions of the embedding:

* Go byte slices become `List Nat`; every read normalizes an element with
  `% 256`, which encodes the `uint8` element type of the Go buffer.
* Go strings are byte strings, so they also become `List Nat` (`GoStr`);
  `'.'` is byte 46.
* The mutable `dnsReader` becomes a value threaded through `Except String`:
  a read either returns the value and the advanced reader, or the error
  string used by the source (`errors.New(...)` messages are kept verbatim).
  `ReadBytesSt` additionally keeps the state-passing shape of the source so
  that "the cursor is unchanged on failure" is expressible.
* The source's unbounded pointer recursion in `ReadName`/`ReadNameFromOffset`
  is rendered with a fuel parameter; the fuel bound `nameFuel` is proved
  sufficient (the "Name resolution fuel exhausted" result is unreachable for
  well-formed offset stacks), which is exactly the termination argument.
* Where the repository contains several evolutionary variants of a function,
  the variant in the primary named source files
  (`internal/parser/parser.go`, `internal/parser/serializer.go`, the first
  cache and resolver variants of the resolver package) is the one embedded.
-/

namespace DNS

set_option maxRecDepth 100000

deriving instance DecidableEq for Except

/-- Go strings are byte slices; domain names and labels are byte strings. -/
abbrev GoStr := List Nat

/-- The byte `'.'`. -/
def dotByte : Nat := 46

/-- Embeds `parser.MessageType`. -/
inductive MessageType where
  | Query
  | Response
deriving DecidableEq

/-- Embeds `parser.parseStatus`: the decoder's phase. -/
inductive parseStatus where
  | parsingHeader
  | parsingQuestion
  | parsingResourceRecords
deriving DecidableEq

/-- Embeds `parser.RData`: the source stores a dynamically typed `any`; each record
struct becomes one constructor. IPs are kept as their byte lists. -/
inductive RData where
  | a (ip : List Nat)
  | ns (name : GoStr)
  | md (name : GoStr)
  | mf (name : GoStr)
  | cname (name : GoStr)
  | soa (mname rname : GoStr) (serial refresh retry expire minimum : Nat)
  | mb (name : GoStr)
  | mg (name : GoStr)
  | mr (name : GoStr)
  | null (anything : List Nat)
  | wks (address : List Nat) (protocol : Nat) (bitmap : List Nat)
  | ptr (name : GoStr)
  | hinfo (cpu os : GoStr)
  | minfo (rmailbx emailbx : GoStr)
  | mx (preference : Nat) (exchange : GoStr)
  | txt (data : List GoStr)
deriving DecidableEq

/-- Embeds `parser.DNSHeader`. The four counts and `ID`, `flags` are `uint16`. -/
structure DNSHeader where
  ID      : Nat
  flags   : Nat
  QDCount : Nat
  ANCount : Nat
  NSCount : Nat
  ARCount : Nat
deriving DecidableEq

/-- Embeds `parser.DNSQuestion`. -/
structure DNSQuestion where
  QName  : GoStr
  QType  : Nat
  QClass : Nat
deriving DecidableEq

/-- Embeds `parser.DNSResourceRecord`. -/
structure DNSResourceRecord where
  Name     : GoStr
  Type'    : Nat
  Class    : Nat
  TTL      : Nat
  RDLength : Nat
  RData    : RData
deriving DecidableEq

/-- Embeds `parser.DNSMessage`. -/
structure DNSMessage where
  Header      : DNSHeader
  Questions   : List DNSQuestion
  Answers     : List DNSResourceRecord
  Authorities : List DNSResourceRecord
  Additionals : List DNSResourceRecord
deriving DecidableEq

/-- Embeds `parser.dnsReader`: buffer, cursor, decoding phase and the offset stack
used for pointer recursion. -/
structure dnsReader where
  data        : List Nat
  pos         : Nat
  parseStatus : parseStatus
  offsetStack : List Nat
deriving DecidableEq

/-- Embeds `h.GetQR()`: flag mask `0x8000`. -/
def DNSHeader.GetQR (h : DNSHeader) : Bool := h.flags &&& 0x8000 != 0

/-- Embeds `h.GetAA()`: flag mask `0x0400`. -/
def DNSHeader.GetAA (h : DNSHeader) : Bool := h.flags &&& 0x0400 != 0

/-- Embeds `h.GetTC()`: flag mask `0x0200`. -/
def DNSHeader.GetTC (h : DNSHeader) : Bool := h.flags &&& 0x0200 != 0

/-- Embeds `h.GetRA()`: flag mask `0x0080`. -/
def DNSHeader.GetRA (h : DNSHeader) : Bool := h.flags &&& 0x0080 != 0

/-- Embeds `h.GetZ()`: bits masked by `0x0070`, shifted down 4. -/
def DNSHeader.GetZ (h : DNSHeader) : Nat := (h.flags &&& 0x0070) >>> 4

/-- Embeds `h.GetRCode()`: low four bits. -/
def DNSHeader.GetRCode (h : DNSHeader) : Nat := h.flags &&& 0x000F

/-- Byte at position `p` of the buffer (the `uint8` read `r.data[p]`). -/
def dnsReader.byteAt (r : dnsReader) (p : Nat) : Nat := (r.data.getD p 0) % 256

/-- Embeds `r.ReadUint16()`: big-endian, bounds-checked, advances by 2. -/
def ReadUint16 (r : dnsReader) : Except String (Nat × dnsReader) :=
  if r.pos + 2 > r.data.length then .error "Out of bounds while reading uint16"
  else .ok (r.byteAt r.pos * 256 + r.byteAt (r.pos + 1), { r with pos := r.pos + 2 })

/-- Embeds `r.ReadUint32()`: big-endian, bounds-checked, advances by 4. -/
def ReadUint32 (r : dnsReader) : Except String (Nat × dnsReader) :=
  if r.pos + 4 > r.data.length then .error "Out of bounds while reading uint32"
  else .ok (((r.byteAt r.pos * 256 + r.byteAt (r.pos + 1)) * 256
      + r.byteAt (r.pos + 2)) * 256 + r.byteAt (r.pos + 3),
    { r with pos := r.pos + 4 })

/-- Embeds `r.ReadBytes(n)` in state-passing form: the result and the reader after the
call. The source checks bounds first, then rejects `n <= 0`; the cursor is
advanced only on the success path, so a failed read returns the reader
unchanged. `n` is a Go `int` and may be negative (`parseWKSRecord` passes
`length - 5`). -/
def ReadBytesSt (r : dnsReader) (n : Int) : Except String (List Nat) × dnsReader :=
  if (r.pos : Int) + n > r.data.length then
    (.error "Out of bounds while reading bytes", r)
  else if n ≤ 0 then
    (.error "Cannot read non-positive number of bytes", r)
  else
    (.ok (((r.data.drop r.pos).take n.toNat).map (· % 256)),
      { r with pos := r.pos + n.toNat })

/-- Embeds `r.ReadBytes(n)` as used by the decoding pipeline (every caller aborts on
error, so only the success state is threaded). -/
def ReadBytes (r : dnsReader) (n : Int) : Except String (List Nat × dnsReader) :=
  match ReadBytesSt r n with
  | (.ok v, r') => .ok (v, r')
  | (.error e, _) => .error e

/-- Embeds `r.ReadByte()`. -/
def ReadByte (r : dnsReader) : Except String (Nat × dnsReader) :=
  if r.pos ≥ r.data.length then .error "Out of bounds while reading byte"
  else .ok (r.byteAt r.pos, { r with pos := r.pos + 1 })

/-- Embeds `r.ReadUint8()`: `ReadByte` with the error remapped. -/
def ReadUint8 (r : dnsReader) : Except String (Nat × dnsReader) :=
  match ReadByte r with
  | .error _ => .error "Out of bounds while reading uint8"
  | .ok v => .ok v

/-- Embeds `r.ReadString()`: one length octet then that many raw octets. -/
def ReadString (r : dnsReader) : Except String (GoStr × dnsReader) :=
  match ReadByte r with
  | .error e => .error e
  | .ok (length, r) =>
    match ReadBytes r (length : Int) with
    | .error e => .error e
    | .ok (val, r) => .ok (val, r)

/-- Embeds `r.ReadIP()`: four octets; `net.IP(...).To4()` of a 4-byte slice is the
slice itself. -/
def ReadIP (r : dnsReader) : Except String (List Nat × dnsReader) := do
  let (ipBytes, r) ← ReadBytes r 4
  return (ipBytes, r)

/-- Embeds `strings.Join(tokens, ".")` on byte strings. -/
def joinDot : List GoStr → GoStr
  | [] => []
  | [x] => x
  | x :: xs => x ++ dotByte :: joinDot xs

/-- Embeds `strings.Split(v, ".")` on byte strings (single-byte separator). -/
def splitDot : GoStr → List GoStr
  | [] => [[]]
  | c :: cs =>
    if c = dotByte then [] :: splitDot cs
    else
      match splitDot cs with
      | [] => [[c]]
      | t :: ts => (c :: t) :: ts

/-- Embeds `strings.TrimSuffix(token, ".")`: remove one trailing dot if present. -/
def trimDot (s : GoStr) : GoStr :=
  if s.getLast? = some dotByte then s.dropLast else s

/-- How one pass of `ReadName`'s label loop ends: at the zero terminator (with
the cursor just past it), or at a compression pointer (with its 14-bit offset
and the cursor just past the two pointer octets). -/
inductive NameEnd where
  | terminator (newPos : Nat)
  | pointer (offset : Nat) (newPos : Nat)
deriving DecidableEq

/-- The label loop of `r.ReadName()`: reads leading octets from `pos`. An octet
with both top bits set is a pointer only in the `parsingResourceRecords`
phase (the source gates the branch on `r.parseStatus`); otherwise any nonzero
octet is a label length, and a short label read fails with the source's
`"(Q)Name not long enough"` message. The loop is driven by a step fuel;
every call supplies `data.length + 1`, which `readLabels_sufficient` proves
is enough because each iteration consumes at least two octets. `fuelMsg`
marks the (unreachable) exhaustion of a fuel counter of the embedding. -/
def fuelMsg : String := "Name resolution fuel exhausted"

def readLabels (data : List Nat) (st : parseStatus) :
    Nat → Nat → List GoStr → Except String (List GoStr × NameEnd)
  | 0, _, _ => .error fuelMsg
  | fuel + 1, pos, tokens =>
    if pos ≥ data.length then .error "Out of bounds while reading byte"
    else if st = parseStatus.parsingResourceRecords ∧ (data.getD pos 0) % 256 &&& 0xC0 = 0xC0 then
      if pos + 1 ≥ data.length then .error "Out of bounds while reading byte"
      else
        .ok (tokens,
          .pointer (((data.getD pos 0) % 256 &&& 0x3F) * 256 + (data.getD (pos + 1) 0) % 256)
            (pos + 2))
    else if (data.getD pos 0) % 256 = 0 then
      .ok (tokens, .terminator (pos + 1))
    else if pos + 1 + (data.getD pos 0) % 256 > data.length then
      .error "(Q)Name not long enough"
    else
      readLabels data st fuel (pos + 1 + (data.getD pos 0) % 256)
        (tokens ++ [((data.drop (pos + 1)).take ((data.getD pos 0) % 256)).map (· % 256)])

/-- Embeds `r.ReadName()` together with `r.ReadNameFromOffset(offset)`, with the
pointer-chain depth controlled by `fuel`. Following a pointer checks the
offset stack for a cycle (`"Cyclical offset detected"`), pushes the offset,
decodes from it, and restores the cursor and the stack — so the returned
reader keeps the caller's stack, and the cursor ends just past the two
pointer octets. -/
def readNameAux : Nat → dnsReader → Except String (GoStr × dnsReader)
  | fuel, r =>
    match readLabels r.data r.parseStatus (r.data.length + 1) r.pos [] with
    | .error e => .error e
    | .ok (tokens, .terminator p) =>
      .ok (joinDot tokens ++ [dotByte], { r with pos := p })
    | .ok (tokens, .pointer off p) =>
      if off ∈ r.offsetStack then .error "Cyclical offset detected"
      else
        match fuel with
        | 0 => .error fuelMsg
        | fuel' + 1 =>
          match readNameAux fuel' { r with pos := off, offsetStack := r.offsetStack ++ [off] } with
          | .error e => .error e
          | .ok (name, _) =>
            .ok (joinDot (tokens ++ [trimDot name]) ++ [dotByte], { r with pos := p })

/-- Fuel bound for `ReadName`: one more than the number of distinct 14-bit
pointer offsets. -/
def nameFuel : Nat := 16385

/-- Embeds `r.ReadName()`. -/
def ReadName (r : dnsReader) : Except String (GoStr × dnsReader) :=
  readNameAux nameFuel r

/-! ## Per-type RDATA parsers (`parser.go`) -/

/-- Embeds `parseARecord`. -/
def parseARecord (r : dnsReader) : Except String (RData × dnsReader) := do
  let (ip, r) ← ReadIP r
  return (.a ip, r)

/-- Embeds `parseNSRecord`. -/
def parseNSRecord (r : dnsReader) : Except String (RData × dnsReader) := do
  let (name, r) ← ReadName r
  return (.ns name, r)

/-- Embeds `parseMDRecord`. -/
def parseMDRecord (r : dnsReader) : Except String (RData × dnsReader) := do
  let (name, r) ← ReadName r
  return (.md name, r)

/-- Embeds `parseMFRecord`. -/
def parseMFRecord (r : dnsReader) : Except String (RData × dnsReader) := do
  let (name, r) ← ReadName r
  return (.mf name, r)

/-- Embeds `parseCNameRecord`. -/
def parseCNameRecord (r : dnsReader) : Except String (RData × dnsReader) := do
  let (name, r) ← ReadName r
  return (.cname name, r)

/-- Embeds `parseSOARecord`: two names then five 32-bit words. -/
def parseSOARecord (r : dnsReader) : Except String (RData × dnsReader) := do
  let (mname, r) ← ReadName r
  let (rname, r) ← ReadName r
  let (serial, r) ← ReadUint32 r
  let (refresh, r) ← ReadUint32 r
  let (retry, r) ← ReadUint32 r
  let (expire, r) ← ReadUint32 r
  let (minimum, r) ← ReadUint32 r
  return (.soa mname rname serial refresh retry expire minimum, r)

/-- Embeds `parseMBRecord`. -/
def parseMBRecord (r : dnsReader) : Except String (RData × dnsReader) := do
  let (name, r) ← ReadName r
  return (.mb name, r)

/-- Embeds `parseMGRecord`. -/
def parseMGRecord (r : dnsReader) : Except String (RData × dnsReader) := do
  let (name, r) ← ReadName r
  return (.mg name, r)

/-- Embeds `parseMRRecord`. -/
def parseMRRecord (r : dnsReader) : Except String (RData × dnsReader) := do
  let (name, r) ← ReadName r
  return (.mr name, r)

/-- Embeds `parseNullRecord`: `ReadBytes(length)` of the whole RDATA. -/
def parseNullRecord (r : dnsReader) (length : Int) : Except String (RData × dnsReader) := do
  let (anything, r) ← ReadBytes r length
  return (.null anything, r)

/-- Embeds `parseWKSRecord`: address, protocol, then a `length - 5` byte bitmap. -/
def parseWKSRecord (r : dnsReader) (length : Int) : Except String (RData × dnsReader) := do
  let (address, r) ← ReadIP r
  let (protocol, r) ← ReadUint8 r
  let (bitmap, r) ← ReadBytes r (length - 5)
  return (.wks address protocol bitmap, r)

/-- Embeds `parsePTRRecord`. -/
def parsePTRRecord (r : dnsReader) : Except String (RData × dnsReader) := do
  let (name, r) ← ReadName r
  return (.ptr name, r)

/-- Embeds `parseHInfoRecord`: two character-strings. -/
def parseHInfoRecord (r : dnsReader) : Except String (RData × dnsReader) := do
  let (cpu, r) ← ReadString r
  let (os, r) ← ReadString r
  return (.hinfo cpu os, r)

/-- Embeds `parseMInfoRecord`: two names. -/
def parseMInfoRecord (r : dnsReader) : Except String (RData × dnsReader) := do
  let (rmailbx, r) ← ReadName r
  let (emailbx, r) ← ReadName r
  return (.minfo rmailbx emailbx, r)

/-- Embeds `parseMXRecord`: preference then exchange name. -/
def parseMXRecord (r : dnsReader) : Except String (RData × dnsReader) := do
  let (preference, r) ← ReadUint16 r
  let (exchange, r) ← ReadName r
  return (.mx preference exchange, r)

/-- The loop of `parseTXTRecord`: while the cursor is before
`startPos + length`, read one character-string. The loop terminates because
each successful `ReadString` consumes at least its length octet (shown inline
for the termination measure). -/
def parseTXTLoop (startPos : Nat) (length : Int) (r : dnsReader) (acc : List GoStr) :
    Except String (List GoStr × dnsReader) :=
  if h : (r.pos : Int) < (startPos : Int) + length then
    match hs : ReadString r with
    | .error e => .error e
    | .ok (s, r') => parseTXTLoop startPos length r' (acc ++ [s])
  else .ok (acc, r)
termination_by ((startPos : Int) + length - r.pos).toNat
decreasing_by
  have hlt : r.pos < r'.pos := by
    unfold ReadString at hs
    split at hs
    · simp at hs
    · next heq1 =>
      split at hs
      · simp at hs
      · next heq2 =>
        simp only [Except.ok.injEq, Prod.mk.injEq] at hs
        obtain ⟨-, rfl⟩ := hs
        have h1 : ∀ {q q' : dnsReader} {b : Nat}, ReadByte q = .ok (b, q') →
            q'.pos = q.pos + 1 := by
          intro q q' b hq
          unfold ReadByte at hq
          split at hq
          · simp at hq
          · simp only [Except.ok.injEq, Prod.mk.injEq] at hq
            obtain ⟨-, rfl⟩ := hq
            rfl
        have h2 : ∀ {q q' : dnsReader} {n : Int} {v : List Nat},
            ReadBytes q n = .ok (v, q') → q'.pos = q.pos + n.toNat := by
          intro q q' n v hq
          unfold ReadBytes ReadBytesSt at hq
          split at hq
          · next heq =>
            split at heq
            · simp at heq
            · split at heq
              · simp at heq
              · simp only [Prod.mk.injEq, Except.ok.injEq] at heq hq
                obtain ⟨-, rfl⟩ := heq
                obtain ⟨-, rfl⟩ := hq
                rfl
          · simp at hq
        have := h1 heq1
        have := h2 heq2
        omega
  omega

/-- Embeds `parseTXTRecord`: character-strings filling the RDATA. -/
def parseTXTRecord (r : dnsReader) (length : Int) : Except String (RData × dnsReader) := do
  let (recs, r) ← parseTXTLoop r.pos length r []
  return (.txt recs, r)

/-- The `switch rt` dispatch of `parseRData` (record-type constants
A=1 … TXT=16); an unknown type is `"Unsupported TYPE"`. -/
def parseRDataDispatch (r : dnsReader) (rt : Nat) (length : Int) :
    Except String (RData × dnsReader) :=
  match rt with
  | 1 => parseARecord r
  | 2 => parseNSRecord r
  | 3 => parseMDRecord r
  | 4 => parseMFRecord r
  | 5 => parseCNameRecord r
  | 6 => parseSOARecord r
  | 7 => parseMBRecord r
  | 8 => parseMGRecord r
  | 9 => parseMRRecord r
  | 10 => parseNullRecord r length
  | 11 => parseWKSRecord r length
  | 12 => parsePTRRecord r
  | 13 => parseHInfoRecord r
  | 14 => parseMInfoRecord r
  | 15 => parseMXRecord r
  | 16 => parseTXTRecord r length
  | _ => .error "Unsupported TYPE"

/-- Embeds `parseRData`: remember `startPos`, dispatch on the record type, then fail
with `"RData not aligned with RLength"` unless the cursor advanced by exactly
`length`. (The source also receives the record class but never uses it.) -/
def parseRData (r : dnsReader) (rt : Nat) (length : Int) :
    Except String (RData × dnsReader) :=
  match parseRDataDispatch r rt length with
  | .error e => .error e
  | .ok (res, r') =>
    if (r'.pos : Int) - (r.pos : Int) ≠ length then
      .error "RData not aligned with RLength"
    else .ok (res, r')

/-! ## Header validation and message assembly (`parser.go`) -/

/-- Embeds `h.validateHeader(mode)`, `parser.go` variant: a Query must have QR, AA and
RA clear, Z and RCode zero, QDCount nonzero and the other counts zero; a
Response must have QR set and QDCount nonzero. -/
def validateHeader (h : DNSHeader) (mode : MessageType) : Except String Unit :=
  match mode with
  | .Query =>
    if h.GetQR then .error "QR bit set in query"
    else if h.GetAA then .error "AA bit set in query"
    else if h.GetRA then .error "RA bit set in query"
    else if h.GetZ > 0 then .error "Z must be zero"
    else if h.GetRCode > 0 then .error "RCODE set in query"
    else if h.QDCount = 0 then .error "QDCOUNT set to zero"
    else if h.ANCount > 0 then .error "ANCOUNT set in query"
    else if h.NSCount > 0 then .error "NSCOUNT set in query"
    else if h.ARCount > 0 then .error "ARCOUNT set in query"
    else .ok ()
  | .Response =>
    if ¬h.GetQR then .error "QR bit not set in response"
    else if h.QDCount = 0 then .error "QCount not non-zero in response"
    else .ok ()

/-- Embeds `r.parseDNSHeader(mode)`: six 16-bit reads, validation, then the parser
moves to the question phase. -/
def parseDNSHeader (r : dnsReader) (mode : MessageType) :
    Except String (DNSHeader × dnsReader) :=
  if r.parseStatus ≠ .parsingHeader then
    .error "Parser in incorrect state"
  else
    match ReadUint16 r with
    | .error e => .error e
    | .ok (id, r) =>
    match ReadUint16 r with
    | .error e => .error e
    | .ok (flags, r) =>
    match ReadUint16 r with
    | .error e => .error e
    | .ok (qdCount, r) =>
    match ReadUint16 r with
    | .error e => .error e
    | .ok (anCount, r) =>
    match ReadUint16 r with
    | .error e => .error e
    | .ok (nsCount, r) =>
    match ReadUint16 r with
    | .error e => .error e
    | .ok (arCount, r) =>
    match validateHeader ⟨id, flags, qdCount, anCount, nsCount, arCount⟩ mode with
    | .error e => .error e
    | .ok _ =>
      .ok (⟨id, flags, qdCount, anCount, nsCount, arCount⟩,
        { r with parseStatus := .parsingQuestion })

/-- The counting loop of `parseDNSQuestion`: name, type, class per question. -/
def parseQuestionsLoop : Nat → dnsReader → List DNSQuestion →
    Except String (List DNSQuestion × dnsReader)
  | 0, r, acc => .ok (acc, r)
  | n + 1, r, acc =>
    match ReadName r with
    | .error e => .error e
    | .ok (qname, r) =>
    match ReadUint16 r with
    | .error e => .error e
    | .ok (qtype, r) =>
    match ReadUint16 r with
    | .error e => .error e
    | .ok (qclass, r) =>
    parseQuestionsLoop n r (acc ++ [⟨qname, qtype, qclass⟩])

/-- Embeds `r.parseDNSQuestion(qdCount)`: guarded by the question phase; afterwards
the parser moves to the resource-record phase. -/
def parseDNSQuestion (r : dnsReader) (qdCount : Nat) :
    Except String (List DNSQuestion × dnsReader) :=
  if r.parseStatus ≠ .parsingQuestion then
    .error "Parser in incorrect state"
  else
    match parseQuestionsLoop qdCount r [] with
    | .error e => .error e
    | .ok (questions, r) =>
      .ok (questions, { r with parseStatus := .parsingResourceRecords })

/-- The counting loop of `parseDNSResourceRecord`: name, type, class, TTL,
RDLength, then the length-checked RDATA. -/
def parseRecordsLoop : Nat → dnsReader → List DNSResourceRecord →
    Except String (List DNSResourceRecord × dnsReader)
  | 0, r, acc => .ok (acc, r)
  | n + 1, r, acc =>
    match ReadName r with
    | .error e => .error e
    | .ok (name, r) =>
    match ReadUint16 r with
    | .error e => .error e
    | .ok (rtype, r) =>
    match ReadUint16 r with
    | .error e => .error e
    | .ok (rclass, r) =>
    match ReadUint32 r with
    | .error e => .error e
    | .ok (ttl, r) =>
    match ReadUint16 r with
    | .error e => .error e
    | .ok (rdlength, r) =>
    match parseRData r rtype (rdlength : Int) with
    | .error e => .error e
    | .ok (rdata, r) =>
    parseRecordsLoop n r (acc ++ [⟨name, rtype, rclass, ttl, rdlength, rdata⟩])

/-- Embeds `r.parseDNSResourceRecord(count)`. -/
def parseDNSResourceRecord (r : dnsReader) (count : Nat) :
    Except String (List DNSResourceRecord × dnsReader) :=
  parseRecordsLoop count r []

/-- Embeds `ParseDNSMessage` (`parser.go` variant): header, questions, and — only in
Response mode — the answer section. This variant returns without ever
decoding the authority or additional sections. -/
def ParseDNSMessage (query : List Nat) (mode : MessageType) : Except String DNSMessage :=
  match parseDNSHeader ⟨query, 0, .parsingHeader, []⟩ mode with
  | .error e => .error e
  | .ok (header, r) =>
  match parseDNSQuestion r header.QDCount with
  | .error e => .error e
  | .ok (questions, r) =>
  if mode = .Query then
    .ok ⟨header, questions, [], [], []⟩
  else
    match parseDNSResourceRecord r header.ANCount with
    | .error e => .error e
    | .ok (answers, _) => .ok ⟨header, questions, answers, [], []⟩

/-! ## The serializer (`serializer.go`): append-only writer with a
suffix-to-offset compression table -/

/-- Embeds `parser.dnsWriter`: the output bytes and the compression table mapping an
already-emitted name suffix to its absolute offset. The Go `map[string]int`
is an association list here; a key is inserted only after lookup missed, so
keys stay unique and first-match lookup agrees with the map. -/
structure dnsWriter where
  data  : List Nat
  names : List (GoStr × Nat)
deriving DecidableEq

/-- Lookup in the compression table. -/
def lookupName : List (GoStr × Nat) → GoStr → Option Nat
  | [], _ => none
  | (k, v) :: rest, s => if k = s then some v else lookupName rest s

/-- Embeds `s.writeByte(v)`. -/
def writeByte (w : dnsWriter) (v : Nat) : dnsWriter :=
  { w with data := w.data ++ [v % 256] }

/-- Embeds `s.writeBytes(v)`. -/
def writeBytes (w : dnsWriter) (v : List Nat) : dnsWriter :=
  { w with data := w.data ++ v.map (· % 256) }

/-- Embeds `s.writeUint8(v)`. -/
def writeUint8 (w : dnsWriter) (v : Nat) : dnsWriter := writeByte w v

/-- Embeds `s.writeUint16(v)`: big-endian, two octets of `v` as `uint16`. -/
def writeUint16 (w : dnsWriter) (v : Nat) : dnsWriter :=
  { w with data := w.data ++ [v % 65536 / 256, v % 256] }

/-- Embeds `s.writeUint32(v)`: big-endian, four octets of `v` as `uint32`. -/
def writeUint32 (w : dnsWriter) (v : Nat) : dnsWriter :=
  { w with data := w.data ++ [v % 4294967296 / 16777216,
      v % 16777216 / 65536, v % 65536 / 256, v % 256] }

/-- Embeds `s.writeString(v)`: length octet then the raw bytes. -/
def writeString (w : dnsWriter) (v : GoStr) : dnsWriter :=
  writeBytes (writeByte w v.length) v

/-- Embeds `s.writePointer(offset)`: `(uint16(0xC0) << 8) | uint16(offset)`. -/
def writePointer (w : dnsWriter) (offset : Nat) : dnsWriter :=
  writeUint16 w (0xC000 ||| (offset % 65536))

/-- Embeds `net.IP.To4` for the values the core builds: record IPs are 4-octet
lists (`ReadIP` and the root list produce only these); anything else becomes
`nil`, which appends no bytes. -/
def ipTo4 (v : List Nat) : List Nat := if v.length = 4 then v else []

/-- Embeds `s.writeIP(v)`. -/
def writeIP (w : dnsWriter) (v : List Nat) : dnsWriter :=
  writeBytes w (ipTo4 v)

/-- The token loop of `s.writeName(v)`: for each label, look up the suffix
from that label onward; on a hit emit a pointer and stop (the `true` result
records the early return), otherwise record the suffix (for a non-empty
label) and emit the label as a character-string. -/
def writeNameLoop (w : dnsWriter) : List GoStr → dnsWriter × Bool
  | [] => (w, false)
  | t :: rest =>
    match lookupName w.names (joinDot (t :: rest)) with
    | some offset => (writePointer w offset, true)
    | none =>
      writeNameLoop
        (writeString
          (if t ≠ [] then { w with names := w.names ++ [(joinDot (t :: rest), w.data.length)] }
           else w) t)
        rest

/-- Embeds `s.writeName(v)` (`serializer.go` variant): run the token loop over
`strings.Split(v, ".")`; if no pointer ended the loop and `v` has no
trailing dot, append a zero octet. The boolean reports whether a pointer
was written. -/
def writeName (w : dnsWriter) (v : GoStr) : dnsWriter × Bool :=
  if (writeNameLoop w (splitDot v)).2 then ((writeNameLoop w (splitDot v)).1, true)
  else if v.getLast? ≠ some dotByte then
    (writeByte (writeNameLoop w (splitDot v)).1 0, false)
  else ((writeNameLoop w (splitDot v)).1, false)

/-- Embeds `s.writeRData(rdata)`: the per-type serializers of `serializer.go`
(note the source writes MX exchange and MINFO names with `writeString`). -/
def writeRData (w : dnsWriter) : RData → dnsWriter
  | .a ip => writeIP w ip
  | .ns name => (writeName w name).1
  | .md name => (writeName w name).1
  | .mf name => (writeName w name).1
  | .cname name => (writeName w name).1
  | .soa mname rname serial refresh retry expire minimum =>
    let w := (writeName w mname).1
    let w := (writeName w rname).1
    let w := writeUint32 w serial
    let w := writeUint32 w refresh
    let w := writeUint32 w retry
    let w := writeUint32 w expire
    writeUint32 w minimum
  | .mb name => (writeName w name).1
  | .mg name => (writeName w name).1
  | .mr name => (writeName w name).1
  | .null anything => writeBytes w anything
  | .wks address protocol bitmap =>
    writeBytes (writeUint8 (writeIP w address) protocol) bitmap
  | .ptr name => (writeName w name).1
  | .hinfo cpu os => writeString (writeString w cpu) os
  | .minfo rmailbx emailbx => writeString (writeString w rmailbx) emailbx
  | .mx preference exchange => writeString (writeUint16 w preference) exchange
  | .txt data => data.foldl writeString w

/-- Embeds `s.serializeDNSHeader(h)`. -/
def serializeDNSHeader (w : dnsWriter) (h : DNSHeader) : dnsWriter :=
  let w := writeUint16 w h.ID
  let w := writeUint16 w h.flags
  let w := writeUint16 w h.QDCount
  let w := writeUint16 w h.ANCount
  let w := writeUint16 w h.NSCount
  writeUint16 w h.ARCount

/-- Embeds `s.serializeDNSQuestion(qs)`. -/
def serializeDNSQuestion (w : dnsWriter) (qs : List DNSQuestion) : dnsWriter :=
  qs.foldl (fun w q => writeUint16 (writeUint16 (writeName w q.QName).1 q.QType) q.QClass) w

/-- Embeds `s.serializeDNSResourceRecord(rrs)`. -/
def serializeDNSResourceRecord (w : dnsWriter) (rrs : List DNSResourceRecord) : dnsWriter :=
  rrs.foldl (fun w rr =>
    let w := (writeName w rr.Name).1
    let w := writeUint16 w rr.Type'
    let w := writeUint16 w rr.Class
    let w := writeUint32 w rr.TTL
    let w := writeUint16 w rr.RDLength
    writeRData w rr.RData) w

/-- Embeds `SerializeDNSMessage(m)`: header, then each section in order, from a
fresh writer with an empty compression table. -/
def SerializeDNSMessage (m : DNSMessage) : List Nat :=
  let w : dnsWriter := ⟨[], []⟩
  let w := serializeDNSHeader w m.Header
  let w := serializeDNSQuestion w m.Questions
  let w := serializeDNSResourceRecord w m.Answers
  let w := serializeDNSResourceRecord w m.Authorities
  let w := serializeDNSResourceRecord w m.Additionals
  w.data

/-- Embeds `CreateQuery(domain, qtype, qclass)` (`serializer.go` variant), with the
random `generateID()` made an explicit parameter. -/
def CreateQuery (id : Nat) (domain : GoStr) (qtype qclass : Nat) : List Nat :=
  SerializeDNSMessage
    ⟨⟨id, 0, 1, 0, 0, 0⟩, [⟨domain, qtype, qclass⟩], [], [], []⟩

/-! ## The TTL cache (`resolver` package, first variant)

`time.Now()` becomes an explicit `now : Int` argument (seconds); an entry's
expiry is `now + TTL` at insertion time, and liveness is `now < expiry`
(`time.Now().Before(expiry)`). The Go map becomes a function to `Option`
so that key absence (`crrs, ok := c.records[k]`) is representable. Lock
operations guard the same sequential bodies and are dropped. -/

/-- Embeds `resolver.cacheKey`. -/
structure cacheKey where
  Name  : GoStr
  Type' : Nat
  Class : Nat
deriving DecidableEq

/-- Embeds `resolver.cachedResourceRecord`. -/
structure cachedResourceRecord where
  record : DNSResourceRecord
  expiry : Int
deriving DecidableEq

/-- The cache contents (`cache.records`). -/
abbrev cacheMap := cacheKey → Option (List cachedResourceRecord)

/-- Embeds `getLiveResourceRecords`: the records not yet expired, in order, and
whether any expired entry was observed. -/
def getLiveResourceRecords (now : Int) : List cachedResourceRecord →
    List DNSResourceRecord × Bool
  | [] => ([], false)
  | crr :: rest =>
    match getLiveResourceRecords now rest with
    | (result, hasExpired) =>
      if now < crr.expiry then (crr.record :: result, hasExpired)
      else (result, true)

/-- Embeds `c.Get(k)`: a missing key is `(nil, false)`; otherwise the live records
with `found = len(result) > 0`. (The `hasExpired` flag only schedules the
asynchronous `ClearExpired` and does not affect the returned value.) -/
def cacheGet (records : cacheMap) (k : cacheKey) (now : Int) :
    List DNSResourceRecord × Bool :=
  match records k with
  | none => ([], false)
  | some crrs =>
    match getLiveResourceRecords now crrs with
    | (result, _) => (result, decide (0 < result.length))

/-- Embeds `c.Add(domain, v)`: append `(v, now + v.TTL)` under
`(domain, v.Type, v.Class)`, starting a fresh list if the key is absent. -/
def cacheAdd (records : cacheMap) (domain : GoStr) (v : DNSResourceRecord) (now : Int) :
    cacheMap := fun q =>
  if q = ⟨domain, v.Type', v.Class⟩ then
    some ((match records ⟨domain, v.Type', v.Class⟩ with | none => [] | some l => l) ++
      [⟨v, now + (v.TTL : Int)⟩])
  else records q

/-! ## One step of the recursion engine (`Resolver.Resolve`, first variant)

The network is an oracle `send protocol ns payload`; `generateID()` becomes
the explicit `id1`/`id2` arguments (one per `resolveOnce` call). The step
returns the trace of transport requests it issued alongside the outcome, so
that "exactly one TCP retry to the same nameserver" is a statement about the
trace. The answers path additionally runs `cacheMessage` and the referral
path continues with `getAuthority` in the source; the outcome records which
message those continuations receive. -/

/-- Embeds `server.Protocol`. -/
inductive Protocol where
  | udp
  | tcp
deriving DecidableEq

/-- Nameserver address (`net.IP`). -/
abbrev IPAddr := List Nat

/-- What the body of the `Resolve` loop does after the truncation handling:
answers are returned (and cached) when `ANCount > 0`, otherwise the message
is handed to referral selection. -/
inductive StepOutcome where
  | answers (records : List DNSResourceRecord)
  | referral (msg : DNSMessage)
deriving DecidableEq

/-- The `ANCount > 0` branch of the loop body. -/
def stepDecision (msg : DNSMessage) : StepOutcome :=
  if 0 < msg.Header.ANCount then .answers msg.Answers else .referral msg

/-- One iteration of the `for` loop of `Resolver.Resolve`, lines 627–649 of
the resolver (UDP `resolveOnce`, the `TC` check with a single TCP
`resolveOnce` against the same `ns`, then the answer/referral decision),
instrumented with the list of transport sends it performs. -/
def resolveStep (send : Protocol → IPAddr → List Nat → Except String (List Nat))
    (id1 id2 : Nat) (domain : GoStr) (qtype qclass : Nat) (ns : IPAddr) :
    List (Protocol × IPAddr × List Nat) × Except String StepOutcome :=
  let q1 := CreateQuery id1 domain qtype qclass
  match send .udp ns q1 with
  | .error e => ([(.udp, ns, q1)], .error e)
  | .ok res1 =>
    match ParseDNSMessage res1 .Response with
    | .error e => ([(.udp, ns, q1)], .error e)
    | .ok msg1 =>
      if msg1.Header.GetTC then
        let q2 := CreateQuery id2 domain qtype qclass
        match send .tcp ns q2 with
        | .error e => ([(.udp, ns, q1), (.tcp, ns, q2)], .error e)
        | .ok res2 =>
          match ParseDNSMessage res2 .Response with
          | .error e => ([(.udp, ns, q1), (.tcp, ns, q2)], .error e)
          | .ok msg2 => ([(.udp, ns, q1), (.tcp, ns, q2)], .ok (stepDecision msg2))
      else ([(.udp, ns, q1)], .ok (stepDecision msg1))

/-! ## Properties of the name decoder -/

/-- Observer: did the label loop stop at a compression pointer? -/
def endsWithPointer : Except String (List GoStr × NameEnd) → Bool
  | .ok (_, .pointer _ _) => true
  | _ => false

/-- Observer: is the result the fuel-exhaustion error (the artifact of the
embedding, never produced by a source error path)? -/
def isFuelError : Except String (GoStr × dnsReader) → Bool
  | .error e => e = fuelMsg
  | .ok _ => false

/-! ## Concrete wire vectors used to instantiate the claims -/

/-- ASCII bytes of a Lean string (Go string literal). -/
def str (s : String) : GoStr := s.toList.map Char.toNat

/-- A Response buffer whose header declares `NSCount = 1` but carries no
authority section: header `QR=1, QDCount=1, NSCount=1`, the root question
`. A IN`, no answers. -/
def bufNS1 : List Nat :=
  [0, 0, 0x80, 0, 0, 1, 0, 0, 0, 1, 0, 0] ++ [0, 0, 1, 0, 1]

/-- A Query buffer whose question name starts with the octet `0xC0`
(top two bits `11`): header `QDCount=1`, then a name consisting of the
lead octet `0xC0` read as a label length, 192 label bytes, the zero
terminator, and `QType=A`, `QClass=IN`. -/
def bufQueryPointer : List Nat :=
  [0, 0, 0, 0, 0, 1, 0, 0, 0, 0, 0, 0] ++
    0xC0 :: List.replicate 192 97 ++ [0] ++ [0, 1, 0, 1]

/-- A buffer whose first octets are a compression pointer to offset 2 — a
position *later* than the pointer itself — where the name `foo` begins. -/
def bufForwardPointer : List Nat := [0xC0, 2, 3, 102, 111, 111, 0]

/-- A valid Response: `QR=1`, one root question, one answer
`. A IN TTL=60 1.2.3.4`. -/
def bufAnswerA : List Nat :=
  [0, 1, 0x80, 0, 0, 1, 0, 1, 0, 0, 0, 0] ++ [0, 0, 1, 0, 1] ++
    [0, 0, 1, 0, 1, 0, 0, 0, 60, 0, 4, 1, 2, 3, 4]

/-- A valid Response with `TC=1` (flags `0x8200`), one root question and no
answers — an upstream truncation signal. -/
def bufTruncated : List Nat :=
  [0, 1, 0x82, 0, 0, 1, 0, 0, 0, 0, 0, 0] ++ [0, 0, 1, 0, 1]

/-- An NS response: question `google.com. NS IN`, one answer for
`google.com.` whose RDATA is `ns.google.com.`. -/
def bufNSAnswer : List Nat :=
  [18, 52, 129, 128, 0, 1, 0, 1, 0, 0, 0, 0,
   6, 103, 111, 111, 103, 108, 101, 3, 99, 111, 109, 0, 0, 2, 0, 1,
   6, 103, 111, 111, 103, 108, 101, 3, 99, 111, 109, 0, 0, 2, 0, 1, 0, 0, 0, 60, 0, 15,
   2, 110, 115, 6, 103, 111, 111, 103, 108, 101, 3, 99, 111, 109, 0]

/-- A reader positioned at CNAME RDATA `3 'b' 'a' 'd' 0` (an encoded name
consuming five octets). -/
def rdrCname : dnsReader := ⟨[3, 98, 97, 100, 0], 0, .parsingResourceRecords, []⟩

/-- A reader positioned at A-record RDATA `1.2.3.4`. -/
def rdrA : dnsReader := ⟨[1, 2, 3, 4], 0, .parsingResourceRecords, []⟩

/-- The transport oracle for the truncation scenario: UDP yields the
truncated response, TCP yields the full answer. -/
def sendTrunc : Protocol → IPAddr → List Nat → Except String (List Nat) :=
  fun protocol _ _ =>
    match protocol with
    | .udp => .ok bufTruncated
    | .tcp => .ok bufAnswerA

/-- An A record for `example.com.` with a 60-second TTL. -/
def recExampleA : DNSResourceRecord :=
  ⟨str "example.com.", 1, 1, 60, 4, .a [127, 0, 0, 1]⟩

/-- The empty cache (`NewCache()`). -/
def emptyCache : cacheMap := fun _ => none

/-- Every error of the label loop is one of the two source messages or the
fuel marker. -/
theorem readLabels_error_cases (data : List Nat) (st : parseStatus) (e : String) :
    ∀ (fuel pos : Nat) (tokens : List GoStr),
      readLabels data st fuel pos tokens = .error e →
      e = "Out of bounds while reading byte" ∨ e = "(Q)Name not long enough" ∨ e = fuelMsg := by
  intro fuel
  induction fuel with
  | zero =>
    intro pos tokens h
    rw [readLabels] at h
    simp only [Except.error.injEq] at h
    exact .inr (.inr h.symm)
  | succ fuel ih =>
    intro pos tokens h
    rw [readLabels] at h
    split at h
    · simp only [Except.error.injEq] at h
      exact .inl h.symm
    · split at h
      · split at h
        · simp only [Except.error.injEq] at h
          exact .inl h.symm
        · simp at h
      · split at h
        · simp at h
        · split at h
          · simp only [Except.error.injEq] at h
            exact .inr (.inl h.symm)
          · exact ih _ _ h

/-- The fuel `data.length + 1` always suffices for the label loop: each
iteration consumes at least two octets of the remaining buffer. -/
theorem readLabels_sufficient (data : List Nat) (st : parseStatus) :
    ∀ (fuel pos : Nat) (tokens : List GoStr),
      data.length + 1 ≤ fuel + pos → 1 ≤ fuel →
      readLabels data st fuel pos tokens ≠ .error fuelMsg := by
  intro fuel
  induction fuel with
  | zero =>
    intro pos tokens hf hf1
    exact absurd hf1 (by omega)
  | succ fuel ih =>
    intro pos tokens hf hf1
    rw [readLabels]
    split
    · decide
    · next h1 =>
      split
      · split
        · decide
        · simp
      · split
        · simp
        · split
          · decide
          · next h3 h4 =>
            simp only [not_le, not_lt] at h1 h4
            exact ih _ _ (by omega) (by omega)

/-- A pointer accepted by the label loop carries a 14-bit offset. -/
theorem readLabels_pointer_bound (data : List Nat) (st : parseStatus) :
    ∀ (fuel pos : Nat) (tokens toks : List GoStr) (off p : Nat),
      readLabels data st fuel pos tokens = .ok (toks, .pointer off p) → off < 16384 := by
  intro fuel
  induction fuel with
  | zero =>
    intro pos tokens toks off p h
    rw [readLabels] at h
    simp at h
  | succ fuel ih =>
    intro pos tokens toks off p h
    rw [readLabels] at h
    split at h
    · simp at h
    · split at h
      · split at h
        · simp at h
        · simp only [Except.ok.injEq, Prod.mk.injEq, NameEnd.pointer.injEq] at h
          obtain ⟨-, rfl, -⟩ := h
          have h1 : (data.getD pos 0) % 256 &&& 0x3F ≤ 0x3F := Nat.and_le_right
          have h2 : (data.getD (pos + 1) 0) % 256 < 256 := Nat.mod_lt _ (by norm_num)
          omega
      · split at h
        · simp only [Except.ok.injEq, Prod.mk.injEq] at h
          exact absurd h.2 (by simp)
        · split at h
          · simp at h
          · exact ih _ _ _ _ _ h

/-- Outside the resource-record phase the label loop never accepts a pointer:
an octet with the two top bits set is treated as an ordinary label length. -/
theorem readLabels_question_no_pointer (data : List Nat) :
    ∀ (fuel pos : Nat) (tokens : List GoStr),
      endsWithPointer (readLabels data .parsingQuestion fuel pos tokens) = false := by
  intro fuel
  induction fuel with
  | zero =>
    intro pos tokens
    rw [readLabels]
    rfl
  | succ fuel ih =>
    intro pos tokens
    rw [readLabels]
    split
    · rfl
    · split
      · next hcond => exact absurd hcond.1 (by simp)
      · split
        · rfl
        · split
          · rfl
          · exact ih _ _

/-- A duplicate-free list of naturals below `n` has at most `n` elements. -/
theorem nodup_bounded_length_le {l : List Nat} {n : Nat}
    (hn : l.Nodup) (hb : ∀ o ∈ l, o < n) : l.length ≤ n := by
  have h1 : l.toFinset.card = l.length := List.toFinset_card_of_nodup hn
  have h2 : l.toFinset ⊆ Finset.range n := by
    intro x hx
    rw [Finset.mem_range]
    exact hb x (List.mem_toFinset.mp hx)
  have h3 := Finset.card_le_card h2
  rw [h1, Finset.card_range] at h3
  exact h3

/-- Fuel sufficiency for the name decoder: with a duplicate-free offset stack
of 14-bit offsets and fuel exceeding the unused stack capacity, `readNameAux`
never reports fuel exhaustion. Each pointer indirection pushes a fresh
14-bit offset onto the stack (a repeated offset is a cyclic-name error), so
the chain depth is at most 16384. -/
theorem readNameAux_ne_fuelMsg : ∀ (fuel : Nat) (r : dnsReader),
    r.offsetStack.Nodup → (∀ o ∈ r.offsetStack, o < 16384) →
    16384 < fuel + r.offsetStack.length →
    isFuelError (readNameAux fuel r) = false := by
  intro fuel
  induction fuel with
  | zero =>
    intro r hnd hb hlen
    exact absurd hlen (by have := nodup_bounded_length_le hnd hb; omega)
  | succ fuel ih =>
    intro r hnd hb hlen
    rw [readNameAux]
    split
    · next e he =>
      rcases readLabels_error_cases _ _ _ _ _ _ he with rfl | rfl | rfl
      · decide
      · decide
      · exact absurd he (readLabels_sufficient _ _ _ _ _ (by omega) (by omega))
    · rfl
    · next tokens off p he =>
      split
      · decide
      · next hmem =>
        have hoff : off < 16384 := readLabels_pointer_bound _ _ _ _ _ _ _ _ he
        have hnd' : (r.offsetStack ++ [off]).Nodup := by
          simp only [List.nodup_append, List.nodup_cons, List.not_mem_nil, not_false_iff,
            List.nodup_nil, and_true, List.disjoint_singleton]
          exact ⟨hnd, trivial, hmem⟩
        have hb' : ∀ o ∈ r.offsetStack ++ [off], o < 16384 := by
          intro o ho
          rcases List.mem_append.mp ho with ho | ho
          · exact hb o ho
          · simp only [List.mem_singleton] at ho
            exact ho ▸ hoff
        have hlen' : 16384 < fuel + (r.offsetStack ++ [off]).length := by
          simp only [List.length_append, List.length_singleton]
          omega
        have hrecres := ih { r with pos := off, offsetStack := r.offsetStack ++ [off] } hnd' hb' hlen'
        split
        · next hf => omega
        · next fuel' hf =>
          have hfe : fuel' = fuel := by omega
          subst hfe
          split
          · next e hrec =>
            rw [hrec] at hrecres
            exact hrecres
          · rfl

/-- C5 counterexample: the claim requires every accepted pointer offset to
refer to a position earlier than the pointer, but the decoder performs no
such check. In `bufForwardPointer` the pointer at position 0 targets offset
2 — beyond itself — and decoding succeeds, returning `foo.` with the cursor
after the pointer; the label loop reports the accepted pointer `(2, 2)`. -/
theorem claim_C5_counterexample :
    ReadName ⟨bufForwardPointer, 0, .parsingResourceRecords, []⟩ =
      .ok ([102, 111, 111, 46], ⟨bufForwardPointer, 2, .parsingResourceRecords, []⟩) ∧
    readLabels bufForwardPointer .parsingResourceRecords (bufForwardPointer.length + 1) 0 [] =
      .ok ([], .pointer 2 2) := by
  constructor <;> decide

/-- C5 (amended): name decoding terminates for every input — the fixed fuel
`nameFuel = 2^14 + 1` is never exhausted for a well-formed offset stack —
and a pointer whose target offset is already being followed fails with the
cyclic-name error; accepted offsets, however, may also point at or after the
pointer itself (see the counterexample). -/
theorem claim_C5_termination_and_cycle_rejection (r : dnsReader)
    (hnd : r.offsetStack.Nodup) (hb : ∀ o ∈ r.offsetStack, o < 16384) :
    isFuelError (ReadName r) = false ∧
    (∀ tokens off p,
      readLabels r.data r.parseStatus (r.data.length + 1) r.pos [] =
        .ok (tokens, .pointer off p) →
      off ∈ r.offsetStack → ReadName r = .error "Cyclical offset detected") := by
  constructor
  · exact readNameAux_ne_fuelMsg nameFuel r hnd hb (by simp only [nameFuel]; omega)
  · intro tokens off p he hmem
    unfold ReadName
    rw [readNameAux, he]
    simp [hmem]

/-- C5 witness: on the self-pointing buffer `C0 00` the decoder neither
exhausts fuel (by the theorem, at the empty stack) nor loops — it returns
the cyclic-name error. -/
theorem claim_C5_witness :
    isFuelError (ReadName ⟨[0xC0, 0], 0, .parsingResourceRecords, []⟩) = false ∧
    ReadName ⟨[0xC0, 0], 0, .parsingResourceRecords, []⟩ =
      .error "Cyclical offset detected" := by
  refine ⟨(claim_C5_termination_and_cycle_rejection
    ⟨[0xC0, 0], 0, .parsingResourceRecords, []⟩ (by simp) (by simp)).1, ?_⟩
  decide

/-- C3 counterexample: in Query role a question name beginning with the
pointer octet `0xC0` does **not** fail with a malformed-name error — the
octet is consumed as a label length and the message decodes successfully,
yielding the 192-byte label as the question name. -/
theorem claim_C3_counterexample :
    ParseDNSMessage bufQueryPointer .Query =
      .ok ⟨⟨0, 0, 1, 0, 0, 0⟩, [⟨List.replicate 192 97 ++ [46], 1, 1⟩], [], [], []⟩ := by
  decide

/-- C3 (amended): while decoding a question-section name the decoder never
recognizes a compression pointer — the pointer branch is gated on the
resource-record phase, so an octet with top bits `11` is treated as an
ordinary label length (succeeding, as in the concrete buffer, when that many
octets are available, and failing with a bounds error otherwise); pointers
are followed only in resource-record sections. -/
theorem claim_C3_question_pointer_is_label :
    (∀ (data : List Nat) (fuel pos : Nat) (tokens : List GoStr),
      endsWithPointer (readLabels data .parsingQuestion fuel pos tokens) = false) ∧
    (ParseDNSMessage bufQueryPointer .Query).isOk = true := by
  exact ⟨readLabels_question_no_pointer, by decide⟩

/-- C1: after a successful `parseRData` the cursor advanced by exactly the
declared RDLength (measured from the position just after the RDLength field,
where `parseDNSResourceRecord` invokes it); and whenever the per-type
dispatch succeeds having consumed a different number of octets, `parseRData`
returns the rdlength-mismatch error instead of the record. Resource records
are decoded only on the Response path of `ParseDNSMessage`. -/
theorem claim_C1_rdata_advance_equals_rdlength (r : dnsReader) (rt : Nat) (length : Int) :
    (∀ res r', parseRData r rt length = .ok (res, r') →
      (r'.pos : Int) - (r.pos : Int) = length) ∧
    (∀ res r', parseRDataDispatch r rt length = .ok (res, r') →
      (r'.pos : Int) - (r.pos : Int) ≠ length →
      parseRData r rt length = .error "RData not aligned with RLength") := by
  constructor
  · intro res r' h
    unfold parseRData at h
    split at h
    · simp at h
    · next res1 r1 heq =>
      split at h
      · simp at h
      · next hcond =>
        simp only [Except.ok.injEq, Prod.mk.injEq] at h
        obtain ⟨-, rfl⟩ := h
        simp only [ne_eq, not_not] at hcond
        exact hcond
  · intro res r' hd hne
    unfold parseRData
    rw [hd]
    simp only [ne_eq]
    rw [if_pos hne]

/-- C1 witness: an A record (`1.2.3.4`, RDLength 4) consumes exactly four
octets, and the short-RDLength CNAME of scenario S4 (declared length 1, name
consuming 5) is rejected with the rdlength-mismatch error. -/
theorem claim_C1_witness :
    parseRData rdrA 1 4 =
      .ok (.a [1, 2, 3, 4], ⟨[1, 2, 3, 4], 4, .parsingResourceRecords, []⟩) ∧
    ((⟨[1, 2, 3, 4], 4, .parsingResourceRecords, []⟩ : dnsReader).pos : Int) -
      (rdrA.pos : Int) = 4 ∧
    parseRData rdrCname 5 1 = .error "RData not aligned with RLength" := by
  refine ⟨by decide, ?_, ?_⟩
  · exact (claim_C1_rdata_advance_equals_rdlength rdrA 1 4).1
      (.a [1, 2, 3, 4]) ⟨[1, 2, 3, 4], 4, .parsingResourceRecords, []⟩ (by decide)
  · exact (claim_C1_rdata_advance_equals_rdlength rdrCname 5 1).2
      (.cname [98, 97, 100, 46]) ⟨[3, 98, 97, 100, 0], 5, .parsingResourceRecords, []⟩
      (by decide) (by decide)

/-- A successful question loop returns `acc.length + n` questions. -/
theorem parseQuestionsLoop_length :
    ∀ (n : Nat) (r : dnsReader) (acc qs : List DNSQuestion) (r' : dnsReader),
      parseQuestionsLoop n r acc = .ok (qs, r') → qs.length = acc.length + n := by
  intro n
  induction n with
  | zero =>
    intro r acc qs r' h
    rw [parseQuestionsLoop] at h
    simp only [Except.ok.injEq, Prod.mk.injEq] at h
    obtain ⟨rfl, -⟩ := h
    rfl
  | succ n ih =>
    intro r acc qs r' h
    rw [parseQuestionsLoop] at h
    split at h
    · simp at h
    · split at h
      · simp at h
      · split at h
        · simp at h
        · have := ih _ _ _ _ h
          simp only [List.length_append, List.length_singleton] at this
          omega

/-- A successful record loop returns `acc.length + n` records. -/
theorem parseRecordsLoop_length :
    ∀ (n : Nat) (r : dnsReader) (acc rs : List DNSResourceRecord) (r' : dnsReader),
      parseRecordsLoop n r acc = .ok (rs, r') → rs.length = acc.length + n := by
  intro n
  induction n with
  | zero =>
    intro r acc rs r' h
    rw [parseRecordsLoop] at h
    simp only [Except.ok.injEq, Prod.mk.injEq] at h
    obtain ⟨rfl, -⟩ := h
    rfl
  | succ n ih =>
    intro r acc rs r' h
    rw [parseRecordsLoop] at h
    split at h
    · simp at h
    · split at h
      · simp at h
      · split at h
        · simp at h
        · split at h
          · simp at h
          · split at h
            · simp at h
            · split at h
              · simp at h
              · have := ih _ _ _ _ h
                simp only [List.length_append, List.length_singleton] at this
                omega

/-- A successful `parseDNSHeader` validated the header and leaves the parser
in the question phase. -/
theorem parseDNSHeader_ok {r r' : dnsReader} {mode : MessageType} {hd : DNSHeader}
    (h : parseDNSHeader r mode = .ok (hd, r')) :
    validateHeader hd mode = .ok () ∧ r'.parseStatus = .parsingQuestion := by
  unfold parseDNSHeader at h
  split at h
  · simp at h
  · split at h
    · simp at h
    · split at h
      · simp at h
      · split at h
        · simp at h
        · split at h
          · simp at h
          · split at h
            · simp at h
            · split at h
              · simp at h
              · split at h
                · simp at h
                · next u heq =>
                  simp only [Except.ok.injEq, Prod.mk.injEq] at h
                  obtain ⟨rfl, rfl⟩ := h
                  exact ⟨by rw [heq], rfl⟩

/-- A successful `parseDNSQuestion` returns exactly `qdCount` questions. -/
theorem parseDNSQuestion_length {r r' : dnsReader} {qdCount : Nat}
    {qs : List DNSQuestion}
    (h : parseDNSQuestion r qdCount = .ok (qs, r')) : qs.length = qdCount := by
  unfold parseDNSQuestion at h
  split at h
  · simp at h
  · split at h
    · simp at h
    · next heq =>
      simp only [Except.ok.injEq, Prod.mk.injEq] at h
      obtain ⟨rfl, -⟩ := h
      have := parseQuestionsLoop_length _ _ _ _ _ heq
      simpa using this

/-- C2 counterexample: a Response buffer whose header declares `NSCount = 1`
decodes successfully, yet the returned message has an empty Authorities
section — `ParseDNSMessage` (parser.go variant) returns right after the
answer section and never decodes the authority or additional sections. -/
theorem claim_C2_counterexample :
    ParseDNSMessage bufNS1 .Response =
      .ok ⟨⟨0, 0x8000, 1, 0, 1, 0⟩, [⟨[46], 1, 1⟩], [], [], []⟩ ∧
    (DNSMessage.mk ⟨0, 0x8000, 1, 0, 1, 0⟩ [⟨[46], 1, 1⟩] [] [] []).Authorities.length ≠
      (DNSMessage.mk ⟨0, 0x8000, 1, 0, 1, 0⟩ [⟨[46], 1, 1⟩] [] [] []).Header.NSCount := by
  constructor
  · decide
  · decide

/-- C2 (amended): for every buffer that decodes successfully in Response
role, the Questions and Answers sections hold exactly QDCount and ANCount
entries, decoded from the wire in order; the Authorities and Additionals
sections are always returned empty, regardless of the declared NSCount and
ARCount. -/
theorem claim_C2_section_counts (buf : List Nat) (m : DNSMessage)
    (h : ParseDNSMessage buf .Response = .ok m) :
    m.Questions.length = m.Header.QDCount ∧ m.Answers.length = m.Header.ANCount ∧
    m.Authorities = [] ∧ m.Additionals = [] := by
  unfold ParseDNSMessage at h
  split at h
  · simp at h
  · next hd r1 hhd =>
    split at h
    · simp at h
    · next qs r2 hqs =>
      split at h
      · next hmode => exact absurd hmode (by simp)
      · split at h
        · simp at h
        · next ans r3 hans =>
          simp only [Except.ok.injEq] at h
          subst h
          refine ⟨parseDNSQuestion_length hqs, ?_, rfl, rfl⟩
          have := parseRecordsLoop_length _ _ _ _ _ hans
          simpa using this

/-- C2 witness: the NS response decodes with one question
(QDCount 1) and one answer (ANCount 1), empty authority and additional
sections. -/
theorem claim_C2_witness :
    (DNSMessage.mk ⟨0x1234, 0x8180, 1, 1, 0, 0⟩ [⟨[103, 111, 111, 103, 108, 101, 46, 99, 111, 109, 46], 2, 1⟩]
      [⟨[103, 111, 111, 103, 108, 101, 46, 99, 111, 109, 46], 2, 1, 60, 15, .ns ([110, 115, 46, 103, 111, 111, 103, 108, 101, 46, 99, 111, 109, 46])⟩] [] []).Questions.length =
      (DNSMessage.mk ⟨0x1234, 0x8180, 1, 1, 0, 0⟩ [⟨[103, 111, 111, 103, 108, 101, 46, 99, 111, 109, 46], 2, 1⟩]
        [⟨[103, 111, 111, 103, 108, 101, 46, 99, 111, 109, 46], 2, 1, 60, 15, .ns ([110, 115, 46, 103, 111, 111, 103, 108, 101, 46, 99, 111, 109, 46])⟩] [] []).Header.QDCount ∧
    (DNSMessage.mk ⟨0x1234, 0x8180, 1, 1, 0, 0⟩ [⟨[103, 111, 111, 103, 108, 101, 46, 99, 111, 109, 46], 2, 1⟩]
      [⟨[103, 111, 111, 103, 108, 101, 46, 99, 111, 109, 46], 2, 1, 60, 15, .ns ([110, 115, 46, 103, 111, 111, 103, 108, 101, 46, 99, 111, 109, 46])⟩] [] []).Answers.length =
      (DNSMessage.mk ⟨0x1234, 0x8180, 1, 1, 0, 0⟩ [⟨[103, 111, 111, 103, 108, 101, 46, 99, 111, 109, 46], 2, 1⟩]
        [⟨[103, 111, 111, 103, 108, 101, 46, 99, 111, 109, 46], 2, 1, 60, 15, .ns ([110, 115, 46, 103, 111, 111, 103, 108, 101, 46, 99, 111, 109, 46])⟩] [] []).Header.ANCount ∧
    (DNSMessage.mk ⟨0x1234, 0x8180, 1, 1, 0, 0⟩ [⟨[103, 111, 111, 103, 108, 101, 46, 99, 111, 109, 46], 2, 1⟩]
      [⟨[103, 111, 111, 103, 108, 101, 46, 99, 111, 109, 46], 2, 1, 60, 15, .ns ([110, 115, 46, 103, 111, 111, 103, 108, 101, 46, 99, 111, 109, 46])⟩] [] []).Authorities = [] ∧
    (DNSMessage.mk ⟨0x1234, 0x8180, 1, 1, 0, 0⟩ [⟨[103, 111, 111, 103, 108, 101, 46, 99, 111, 109, 46], 2, 1⟩]
      [⟨[103, 111, 111, 103, 108, 101, 46, 99, 111, 109, 46], 2, 1, 60, 15, .ns ([110, 115, 46, 103, 111, 111, 103, 108, 101, 46, 99, 111, 109, 46])⟩] [] []).Additionals = [] :=
  claim_C2_section_counts bufNSAnswer
    (DNSMessage.mk ⟨0x1234, 0x8180, 1, 1, 0, 0⟩ [⟨[103, 111, 111, 103, 108, 101, 46, 99, 111, 109, 46], 2, 1⟩]
      [⟨[103, 111, 111, 103, 108, 101, 46, 99, 111, 109, 46], 2, 1, 60, 15, .ns ([110, 115, 46, 103, 111, 111, 103, 108, 101, 46, 99, 111, 109, 46])⟩] [] []) (by decide)

/-- C7: `parser.go` header validation in Response role succeeds exactly when
the QR bit is set and QDCount is nonzero (each violation is a decode
failure, surfaced as the FormErr wire response by the server glue); and
every buffer accepted by `ParseDNSMessage` in Response role has QR=1 and
QDCount at least 1. -/
theorem claim_C7_response_header_validation :
    (∀ h : DNSHeader, validateHeader h .Response = .ok () ↔
      (h.GetQR = true ∧ h.QDCount ≠ 0)) ∧
    (∀ (buf : List Nat) (m : DNSMessage), ParseDNSMessage buf .Response = .ok m →
      m.Header.GetQR = true ∧ m.Header.QDCount ≠ 0) := by
  have hiff : ∀ h : DNSHeader, validateHeader h .Response = .ok () ↔
      (h.GetQR = true ∧ h.QDCount ≠ 0) := by
    intro h
    by_cases hq : h.GetQR = true
    · by_cases hd0 : h.QDCount = 0
      · simp [validateHeader, hq, hd0]
      · simp [validateHeader, hq, hd0]
    · simp [validateHeader, hq]
  refine ⟨hiff, ?_⟩
  intro buf m h
  unfold ParseDNSMessage at h
  split at h
  · simp at h
  · next hd r1 hhd =>
    have hv := (parseDNSHeader_ok hhd).1
    split at h
    · simp at h
    · next qs r2 hqs =>
      split at h
      · next hmode => exact absurd hmode (by simp)
      · split at h
        · simp at h
        · simp only [Except.ok.injEq] at h
          subst h
          exact (hiff hd).mp hv

/-- C7 witness: the truncated-response buffer (QR=1, QDCount=1) passes
Response-role validation and decodes; its header satisfies both conditions. -/
theorem claim_C7_witness :
    (DNSMessage.mk ⟨1, 0x8200, 1, 0, 0, 0⟩ [⟨[46], 1, 1⟩] [] [] []).Header.GetQR = true ∧
    (DNSMessage.mk ⟨1, 0x8200, 1, 0, 0, 0⟩ [⟨[46], 1, 1⟩] [] [] []).Header.QDCount ≠ 0 :=
  claim_C7_response_header_validation.2 bufTruncated
    (DNSMessage.mk ⟨1, 0x8200, 1, 0, 0, 0⟩ [⟨[46], 1, 1⟩] [] [] []) (by decide)

/-- The record appended by `Add` is kept by the liveness filter whenever its
expiry lies in the future, and makes the result non-empty. -/
theorem getLiveResourceRecords_append_live (now : Int) (r : DNSResourceRecord) (e : Int)
    (he : now < e) :
    ∀ l : List cachedResourceRecord,
      r ∈ (getLiveResourceRecords now (l ++ [⟨r, e⟩])).1 := by
  intro l
  induction l with
  | nil =>
    simp only [List.nil_append, getLiveResourceRecords, if_pos he]
    exact List.mem_singleton_self r
  | cons c l ih =>
    rw [List.cons_append, getLiveResourceRecords]
    split
    · next res he' hres =>
      split
      · rw [hres] at ih
        exact List.mem_cons_of_mem _ ih
      · rw [hres] at ih
        exact ih

/-- C8: immediately after `Add(name, r)` with a positive TTL, `Get` on the
key `(name, r.Type, r.Class)` at the same instant reports `found = true` and
returns a list containing `r` (the entry expires at `now + TTL > now`). -/
theorem claim_C8_cache_add_get (records : cacheMap) (domain : GoStr)
    (r : DNSResourceRecord) (now : Int) (h : 0 < r.TTL) :
    r ∈ (cacheGet (cacheAdd records domain r now) ⟨domain, r.Type', r.Class⟩ now).1 ∧
    (cacheGet (cacheAdd records domain r now) ⟨domain, r.Type', r.Class⟩ now).2 = true := by
  have he : now < now + (r.TTL : Int) := by
    have h0 : (0 : Int) < (r.TTL : Int) := by exact_mod_cast h
    omega
  have hmem := getLiveResourceRecords_append_live now r (now + (r.TTL : Int)) he
    (match records ⟨domain, r.Type', r.Class⟩ with | none => [] | some l => l)
  have hkey : cacheAdd records domain r now ⟨domain, r.Type', r.Class⟩ =
      some ((match records ⟨domain, r.Type', r.Class⟩ with | none => [] | some l => l) ++
        [⟨r, now + (r.TTL : Int)⟩]) := by
    unfold cacheAdd
    rw [if_pos rfl]
  have hg : cacheGet (cacheAdd records domain r now) ⟨domain, r.Type', r.Class⟩ now =
      ((getLiveResourceRecords now
          ((match records ⟨domain, r.Type', r.Class⟩ with | none => [] | some l => l) ++
            [⟨r, now + (r.TTL : Int)⟩])).1,
        decide (0 < (getLiveResourceRecords now
          ((match records ⟨domain, r.Type', r.Class⟩ with | none => [] | some l => l) ++
            [⟨r, now + (r.TTL : Int)⟩])).1.length)) := by
    unfold cacheGet
    rw [hkey]
  rw [hg]
  refine ⟨hmem, ?_⟩
  simp only [decide_eq_true_eq]
  exact List.length_pos_of_mem hmem

/-- C8 witness: adding a fresh A record with TTL 60 to the empty cache makes
`Get` at the same instant return it with `found = true`. -/
theorem claim_C8_witness :
    recExampleA ∈ (cacheGet (cacheAdd emptyCache (str "example.com.") recExampleA 0)
      ⟨str "example.com.", recExampleA.Type', recExampleA.Class⟩ 0).1 ∧
    (cacheGet (cacheAdd emptyCache (str "example.com.") recExampleA 0)
      ⟨str "example.com.", recExampleA.Type', recExampleA.Class⟩ 0).2 = true :=
  claim_C8_cache_add_get emptyCache (str "example.com.") recExampleA 0 (by decide)

/-- C10: `ReadBytes(n)` fails for every `n ≤ 0` — the state-passing form
shows the reader (hence the cursor) is returned unchanged and no success
value exists. Consequently the zero-length reads required by a zero-length
character-string (`ReadString` on a `0x00` length octet), a NULL record with
RDLength 0, and a WKS record with RDLength 5 (empty bitmap) all fail to
decode with the non-positive-read error. -/
theorem claim_C10_readbytes_nonpositive (r : dnsReader) (n : Int) (hn : n ≤ 0) :
    (ReadBytesSt r n).2 = r ∧
    (∃ e, (ReadBytesSt r n).1 = .error e) ∧
    (∃ e, ReadBytes r n = .error e) ∧
    parseRData ⟨[], 0, .parsingResourceRecords, []⟩ 10 0 =
      .error "Cannot read non-positive number of bytes" ∧
    parseRData ⟨[1, 2, 3, 4, 6], 0, .parsingResourceRecords, []⟩ 11 5 =
      .error "Cannot read non-positive number of bytes" ∧
    ReadString ⟨[0], 0, .parsingResourceRecords, []⟩ =
      .error "Cannot read non-positive number of bytes" := by
  refine ⟨?_, ?_, ?_, by decide, by decide, by decide⟩
  · unfold ReadBytesSt
    by_cases hb : (r.pos : Int) + n > r.data.length
    · rw [if_pos hb]
    · rw [if_neg hb, if_pos hn]
  · unfold ReadBytesSt
    by_cases hb : (r.pos : Int) + n > r.data.length
    · rw [if_pos hb]
      exact ⟨_, rfl⟩
    · rw [if_neg hb, if_pos hn]
      exact ⟨_, rfl⟩
  · unfold ReadBytes ReadBytesSt
    by_cases hb : (r.pos : Int) + n > r.data.length
    · rw [if_pos hb]
      exact ⟨_, rfl⟩
    · rw [if_neg hb, if_pos hn]
      exact ⟨_, rfl⟩

/-- C10 witness: at `n = 0` on a three-byte buffer the read fails, the reader
is unchanged, and the three wire shapes of the claim are all rejected. -/
theorem claim_C10_witness :
    (ReadBytesSt ⟨[1, 2, 3], 1, .parsingResourceRecords, []⟩ 0).2 =
      ⟨[1, 2, 3], 1, .parsingResourceRecords, []⟩ ∧
    (∃ e, (ReadBytesSt ⟨[1, 2, 3], 1, .parsingResourceRecords, []⟩ 0).1 = .error e) ∧
    (∃ e, ReadBytes ⟨[1, 2, 3], 1, .parsingResourceRecords, []⟩ 0 = .error e) ∧
    parseRData ⟨[], 0, .parsingResourceRecords, []⟩ 10 0 =
      .error "Cannot read non-positive number of bytes" ∧
    parseRData ⟨[1, 2, 3, 4, 6], 0, .parsingResourceRecords, []⟩ 11 5 =
      .error "Cannot read non-positive number of bytes" ∧
    ReadString ⟨[0], 0, .parsingResourceRecords, []⟩ =
      .error "Cannot read non-positive number of bytes" :=
  claim_C10_readbytes_nonpositive ⟨[1, 2, 3], 1, .parsingResourceRecords, []⟩ 0 (by decide)

/-- C9: within one step of the resolution loop, a parsed UDP response with
the TC bit set makes the engine issue exactly one further transport request
— the same question re-sent over TCP to the same nameserver — and the
parsed TCP response is the one the answer/referral decision is made from. -/
theorem claim_C9_tc_triggers_single_tcp_retry
    (send : Protocol → IPAddr → List Nat → Except String (List Nat))
    (id1 id2 : Nat) (domain : GoStr) (qtype qclass : Nat) (ns : IPAddr)
    (b1 b2 : List Nat) (m1 m2 : DNSMessage)
    (h1 : send .udp ns (CreateQuery id1 domain qtype qclass) = .ok b1)
    (h2 : ParseDNSMessage b1 .Response = .ok m1)
    (h3 : m1.Header.GetTC = true)
    (h4 : send .tcp ns (CreateQuery id2 domain qtype qclass) = .ok b2)
    (h5 : ParseDNSMessage b2 .Response = .ok m2) :
    resolveStep send id1 id2 domain qtype qclass ns =
      ([(.udp, ns, CreateQuery id1 domain qtype qclass),
        (.tcp, ns, CreateQuery id2 domain qtype qclass)],
       .ok (stepDecision m2)) := by
  unfold resolveStep
  simp only [h1, h2, h3, h4, h5, if_true]

/-- C9 witness: with a transport oracle answering UDP with the truncated
response and TCP with a one-answer response, the step issues exactly the UDP
query followed by one TCP query to the same nameserver and decides from the
TCP message. -/
theorem claim_C9_witness :
    resolveStep sendTrunc 7 8 [46] 1 1 [9, 9, 9, 9] =
      ([(.udp, [9, 9, 9, 9], CreateQuery 7 [46] 1 1),
        (.tcp, [9, 9, 9, 9], CreateQuery 8 [46] 1 1)],
       .ok (stepDecision ⟨⟨1, 0x8000, 1, 1, 0, 0⟩, [⟨[46], 1, 1⟩],
         [⟨[46], 1, 1, 60, 4, .a [1, 2, 3, 4]⟩], [], []⟩)) := by
  exact claim_C9_tc_triggers_single_tcp_retry sendTrunc 7 8 [46] 1 1 [9, 9, 9, 9]
    bufTruncated bufAnswerA
    ⟨⟨1, 0x8200, 1, 0, 0, 0⟩, [⟨[46], 1, 1⟩], [], [], []⟩
    ⟨⟨1, 0x8000, 1, 1, 0, 0⟩, [⟨[46], 1, 1⟩], [⟨[46], 1, 1, 60, 4, .a [1, 2, 3, 4]⟩], [], []⟩
    (by decide) (by decide) (by decide) (by decide) (by decide)

/-- Embeds `strings.Split` never yields an empty list. -/
theorem splitDot_ne_nil : ∀ v : GoStr, splitDot v ≠ [] := by
  intro v
  induction v with
  | nil => simp [splitDot]
  | cons c cs ih =>
    rw [splitDot]
    split
    · simp
    · split
      · next heq => exact absurd heq ih
      · simp

/-- A byte string ending in a dot splits into at least two tokens, the last
of which is empty. -/
theorem splitDot_last_dot : ∀ v : GoStr, v.getLast? = some dotByte →
    (splitDot v).getLast? = some [] ∧ 2 ≤ (splitDot v).length := by
  intro v
  induction v with
  | nil => simp
  | cons c cs ih =>
    intro hlast
    cases cs with
    | nil =>
      simp only [List.getLast?_singleton, Option.some.injEq] at hlast
      subst hlast
      constructor <;> decide
    | cons c2 cs2 =>
      have hlast' : (c2 :: cs2).getLast? = some dotByte := by
        simpa [List.getLast?_cons_cons] using hlast
      obtain ⟨ih1, ih2⟩ := ih hlast'
      have hne := splitDot_ne_nil (c2 :: cs2)
      rw [splitDot]
      split
      · refine ⟨?_, by simp only [List.length_cons]; omega⟩
        rcases hsp : splitDot (c2 :: cs2) with - | ⟨t, ts⟩
        · exact absurd hsp hne
        · rw [hsp] at ih1
          simpa [List.getLast?_cons_cons] using ih1
      · split
        · next heq => exact absurd heq hne
        · next t ts heq =>
          rw [heq] at ih1 ih2
          cases ts with
          | nil => simp at ih2
          | cons t2 ts2 =>
            refine ⟨?_, by simp only [List.length_cons]; omega⟩
            simpa [List.getLast?_cons_cons] using ih1

/-- A byte string containing no dot splits into the single token itself. -/
theorem splitDot_no_dot : ∀ v : GoStr, (∀ c ∈ v, ¬c = dotByte) → splitDot v = [v] := by
  intro v
  induction v with
  | nil => intro h; rfl
  | cons c cs ih =>
    intro h
    rw [splitDot]
    rw [if_neg (h c (by simp))]
    rw [ih (fun x hx => h x (List.mem_cons_of_mem c hx))]

/-- If the token loop finishes without a pointer and the last token is empty,
the emitted data ends with a zero octet (the empty token's length octet). -/
theorem writeNameLoop_false_ends_zero : ∀ (ts : List GoStr) (w : dnsWriter),
    (writeNameLoop w ts).2 = false → ts.getLast? = some [] →
    ((writeNameLoop w ts).1.data).getLast? = some 0 := by
  intro ts
  induction ts with
  | nil =>
    intro w hfalse hlast
    simp at hlast
  | cons t rest ih =>
    intro w hfalse hlast
    cases rest with
    | nil =>
      simp only [List.getLast?_singleton, Option.some.injEq] at hlast
      subst hlast
      rw [writeNameLoop] at hfalse ⊢
      cases hlk : lookupName w.names (joinDot [[]]) with
      | some off =>
        rw [hlk] at hfalse
        simp at hfalse
      | none =>
        rw [hlk] at hfalse
        simp [writeNameLoop, writeString, writeByte, writeBytes]
    | cons t2 rest2 =>
      have hlast' : (t2 :: rest2).getLast? = some [] := by
        simpa [List.getLast?_cons_cons] using hlast
      rw [writeNameLoop] at hfalse ⊢
      cases hlk : lookupName w.names (joinDot (t :: t2 :: rest2)) with
      | some off =>
        rw [hlk] at hfalse
        simp at hfalse
      | none =>
        rw [hlk] at hfalse
        exact ih _ hfalse hlast'

/-- If the token loop stopped at a pointer, the emitted data ends with the
two pointer octets `0xC000 ||| offset`. -/
theorem writeNameLoop_true_pointer : ∀ (ts : List GoStr) (w : dnsWriter),
    (writeNameLoop w ts).2 = true →
    ∃ pre off, (writeNameLoop w ts).1.data =
      pre ++ [(0xC000 ||| off % 65536) % 65536 / 256, (0xC000 ||| off % 65536) % 256] := by
  intro ts
  induction ts with
  | nil =>
    intro w htrue
    simp [writeNameLoop] at htrue
  | cons t rest ih =>
    intro w htrue
    rw [writeNameLoop] at htrue ⊢
    cases hlk : lookupName w.names (joinDot (t :: rest)) with
    | some off =>
      exact ⟨w.data, off, by simp [writePointer, writeUint16]⟩
    | none =>
      rw [hlk] at htrue
      exact ih _ htrue

/-- C4 counterexample: encoding the root name `"."` emits two zero octets,
not one — `strings.Split(".", ".")` yields two empty labels and each is
written as a zero length octet. -/
theorem claim_C4_counterexample :
    (writeName ⟨[], []⟩ (str ".")).1.data = [0, 0] ∧
    (writeName ⟨[], []⟩ (str ".")).1.data ≠ [0] := by
  constructor <;> decide

/-- C4 (amended): for every writer state and name, if no compression pointer
was written the emitted data ends with a zero octet (the terminator — either
the empty final label's length octet for a dotted name, or the explicitly
appended zero); if a pointer was written, the data ends with the two pointer
octets and no terminator follows. The root name `"."`, however, encodes as
two zero octets rather than one. -/
theorem claim_C4_terminator_iff_no_pointer (w : dnsWriter) (v : GoStr) :
    ((writeName w v).2 = false → ((writeName w v).1.data).getLast? = some 0) ∧
    ((writeName w v).2 = true → ∃ pre off, (writeName w v).1.data =
      pre ++ [(0xC000 ||| off % 65536) % 65536 / 256, (0xC000 ||| off % 65536) % 256]) := by
  rcases hloop : writeNameLoop w (splitDot v) with ⟨w', b⟩
  cases b with
  | true =>
    have hw : writeName w v = (w', true) := by
      unfold writeName
      rw [hloop]
      simp
    rw [hw]
    constructor
    · intro hcontra
      simp at hcontra
    · intro _
      have h6 := writeNameLoop_true_pointer (splitDot v) w (by rw [hloop])
      rw [hloop] at h6
      exact h6
  | false =>
    by_cases hdot : v.getLast? = some dotByte
    · have hw : writeName w v = (w', false) := by
        unfold writeName
        rw [hloop]
        simp [hdot]
      rw [hw]
      constructor
      · intro _
        have h5 := writeNameLoop_false_ends_zero (splitDot v) w (by rw [hloop])
          (splitDot_last_dot v hdot).1
        rw [hloop] at h5
        exact h5
      · intro hcontra
        simp at hcontra
    · have hw : writeName w v = (writeByte w' 0, false) := by
        unfold writeName
        rw [hloop]
        simp [hdot]
      rw [hw]
      constructor
      · intro _
        simp [writeByte]
      · intro hcontra
        simp at hcontra

/-- C4 witness: the dotted name `example.com.` is emitted without a pointer
and ends with the zero terminator; with `com.` already in the compression
table at offset 5, encoding `com.` emits a pointer and the data ends with
the pointer octets. -/
theorem claim_C4_witness :
    ((writeName ⟨[], []⟩ (str "example.com.")).1.data).getLast? = some 0 ∧
    (∃ pre off, (writeName ⟨[], [(str "com.", 5)]⟩ (str "com.")).1.data =
      pre ++ [(0xC000 ||| off % 65536) % 65536 / 256, (0xC000 ||| off % 65536) % 256]) := by
  constructor
  · exact (claim_C4_terminator_iff_no_pointer ⟨[], []⟩ (str "example.com.")).1 (by decide)
  · exact (claim_C4_terminator_iff_no_pointer ⟨[], [(str "com.", 5)]⟩ (str "com.")).2
      (by decide)

/-- The last element of a non-empty replicated list. -/
theorem getLast?_replicate (n a : Nat) : (List.replicate (n + 1) a).getLast? = some a := by
  induction n with
  | zero => rfl
  | succ n ih =>
    rw [List.replicate_succ, List.replicate_succ, List.getLast?_cons_cons,
      ← List.replicate_succ]
    exact ih

/-- The token loop on a single fresh non-empty token records its suffix and
emits it as one character-string. -/
theorem writeNameLoop_single (w : dnsWriter) (t : GoStr)
    (hlk : lookupName w.names (joinDot [t]) = none) (ht : t ≠ []) :
    writeNameLoop w [t] =
      (writeString { w with names := w.names ++ [(joinDot [t], w.data.length)] } t, false) := by
  rw [writeNameLoop, hlk, if_pos ht]
  rfl

/-- C6 counterexample: the query the engine builds for a 600-octet domain
name — sent over UDP by `resolveOnce` — serializes to 618 octets, above the
claimed 512-octet bound (no length check exists in the serializer). -/
theorem claim_C6_counterexample :
    512 < (CreateQuery 0 (List.replicate 600 97) 1 1).length := by decide

/-- C6 (amended): serialized message length is unbounded — for every `n`,
the UDP query for a domain of `n + 513` octets is longer than 512 octets
(and longer than `n`); no 512-octet limit is enforced anywhere on the
serialization path. -/
theorem claim_C6_no_udp_size_bound (n : Nat) :
    512 < (CreateQuery 0 (List.replicate (n + 513) 97) 1 1).length ∧
    n < (CreateQuery 0 (List.replicate (n + 513) 97) 1 1).length := by
  have hsplit : splitDot (List.replicate (n + 513) 97) = [List.replicate (n + 513) 97] :=
    splitDot_no_dot _ (fun c hc => by rw [List.eq_of_mem_replicate hc]; decide)
  have hne : List.replicate (n + 513) 97 ≠ [] := by
    intro hcontra
    have := congrArg List.length hcontra
    simp at this
  have hlast : (List.replicate (n + 513) 97).getLast? = some 97 := by
    have h513 : n + 513 = (n + 512) + 1 := by omega
    rw [h513]
    exact getLast?_replicate (n + 512) 97
  have hw12 : serializeDNSHeader ⟨[], []⟩ ⟨0, 0, 1, 0, 0, 0⟩ =
      ⟨[0, 0, 0, 0, 0, 1, 0, 0, 0, 0, 0, 0], []⟩ := by decide
  have hnameLen :
      ((writeName ⟨[0, 0, 0, 0, 0, 1, 0, 0, 0, 0, 0, 0], []⟩
        (List.replicate (n + 513) 97)).1).data.length = n + 527 := by
    unfold writeName
    rw [hsplit, writeNameLoop_single ⟨[0, 0, 0, 0, 0, 1, 0, 0, 0, 0, 0, 0], []⟩
      (List.replicate (n + 513) 97) (by rfl) hne, hlast]
    simp [writeString, writeBytes, writeByte, dotByte, List.length_append, List.length_map,
      List.length_replicate]
  have hlen : (CreateQuery 0 (List.replicate (n + 513) 97) 1 1).length = n + 531 := by
    unfold CreateQuery SerializeDNSMessage
    simp only [serializeDNSQuestion, serializeDNSResourceRecord, List.foldl_cons,
      List.foldl_nil]
    rw [hw12]
    simp only [writeUint16, List.length_append]
    rw [hnameLen]
    simp
  rw [hlen]
  omega

end DNS
